import Mathlib

/-!
Verification of the authentication and session-lifecycle core of the
`sim-one-chat` repository, shallowly embedded from
`src/lib/frontend-sdk/src/services/auth-service.ts` and
`src/utils/password-hashing.ts`.

Modelling conventions:
* JavaScript `Map<string, Session>` becomes an association list with
  no duplicate keys; `Map.get`/`set`/`delete` become `mapGet`/`mapSet`/`mapDelete`.
* `Date.now()` becomes an explicit `now : Nat` argument; all `Date.now()`
  reads inside one call are modelled as the same instant.
* The session-id string `session_${Date.now()}_${uuidv4()}` is injective in
  the pair (timestamp, uuid value); it is modelled as the structure
  `SessionId` holding that pair, with `uuidv4` draws modelled by a
  per-store counter (uuid collisions are assumed impossible, as the code does).
* JavaScript truthiness of optional strings: `none` and `some ""` are falsy.
* Asynchronous wrappers are irrelevant to the verified properties; every
  operation is modelled as a pure state-passing function.
-/

namespace SimOneChat

section AssocMap

variable {K V : Type} [DecidableEq K]

/-- Lookup in an association list, modelling JavaScript `Map.prototype.get`. -/
def mapGet : List (K × V) → K → Option V
  | [], _ => none
  | (k', v) :: rest, k => if k' = k then some v else mapGet rest k

/-- Insert-or-replace, modelling JavaScript `Map.prototype.set`. -/
def mapSet : List (K × V) → K → V → List (K × V)
  | [], k, v => [(k, v)]
  | (k', v') :: rest, k, v =>
    if k' = k then (k, v) :: rest else (k', v') :: mapSet rest k v

/-- Removal, modelling JavaScript `Map.prototype.delete` (the key occurs at
most once in the lists we build). -/
def mapDelete : List (K × V) → K → List (K × V)
  | [], _ => []
  | (k', v') :: rest, k =>
    if k' = k then rest else (k', v') :: mapDelete rest k

/-- The list of keys of an association list. -/
def mapKeys (m : List (K × V)) : List K := m.map Prod.fst

set_option linter.unusedSectionVars false

theorem mapKeys_nil : mapKeys ([] : List (K × V)) = [] := rfl

theorem mapKeys_cons (k : K) (v : V) (m : List (K × V)) :
    mapKeys ((k, v) :: m) = k :: mapKeys m := rfl

theorem mapGet_eq_none_iff (m : List (K × V)) (k : K) :
    mapGet m k = none ↔ k ∉ mapKeys m := by
  induction m with
  | nil => simp [mapGet, mapKeys]
  | cons p rest ih =>
    obtain ⟨k', v⟩ := p
    rw [mapKeys_cons]
    by_cases h : k' = k
    · subst h
      simp [mapGet]
    · have h' : ¬ k = k' := fun hh => h hh.symm
      simp [mapGet, h, h', ih]

theorem mem_mapKeys_of_mapGet {m : List (K × V)} {k : K} {v : V}
    (h : mapGet m k = some v) : k ∈ mapKeys m := by
  by_contra hk
  rw [← mapGet_eq_none_iff] at hk
  simp [hk] at h

theorem mapGet_mapSet_self (m : List (K × V)) (k : K) (v : V) :
    mapGet (mapSet m k v) k = some v := by
  induction m with
  | nil => simp [mapGet, mapSet]
  | cons p rest ih =>
    obtain ⟨k', v'⟩ := p
    by_cases h : k' = k <;> simp [mapGet, mapSet, h, ih]

theorem mapGet_mapSet_ne (m : List (K × V)) {k k' : K} (v : V) (h : k' ≠ k) :
    mapGet (mapSet m k v) k' = mapGet m k' := by
  have h' : ¬ k = k' := fun hh => h hh.symm
  induction m with
  | nil => simp [mapGet, mapSet, h']
  | cons p rest ih =>
    obtain ⟨k₀, v₀⟩ := p
    by_cases h0 : k₀ = k
    · subst h0
      simp [mapGet, mapSet, h']
    · by_cases h1 : k₀ = k'
      · subst h1
        simp [mapGet, mapSet, h0]
      · simp [mapGet, mapSet, h0, h1, ih]

theorem mapGet_mapDelete_ne (m : List (K × V)) {k k' : K} (h : k' ≠ k) :
    mapGet (mapDelete m k) k' = mapGet m k' := by
  induction m with
  | nil => simp [mapDelete]
  | cons p rest ih =>
    obtain ⟨k₀, v₀⟩ := p
    by_cases h0 : k₀ = k
    · subst h0
      have h' : ¬ k₀ = k' := fun hh => h hh.symm
      simp [mapGet, mapDelete, h']
    · by_cases h1 : k₀ = k'
      · subst h1
        simp [mapGet, mapDelete, h0]
      · simp [mapGet, mapDelete, h0, h1, ih]

theorem mapGet_mapDelete_self (m : List (K × V)) (k : K)
    (hnd : (mapKeys m).Nodup) : mapGet (mapDelete m k) k = none := by
  induction m with
  | nil => simp [mapDelete, mapGet]
  | cons p rest ih =>
    obtain ⟨k₀, v₀⟩ := p
    rw [mapKeys_cons, List.nodup_cons] at hnd
    by_cases h0 : k₀ = k
    · subst h0
      rw [mapDelete, if_pos rfl, mapGet_eq_none_iff]
      exact hnd.1
    · rw [mapDelete, if_neg h0, mapGet, if_neg h0]
      exact ih hnd.2

theorem mapKeys_mapSet_of_mem (m : List (K × V)) (k : K) (v : V)
    (h : k ∈ mapKeys m) : mapKeys (mapSet m k v) = mapKeys m := by
  induction m with
  | nil => simp [mapKeys] at h
  | cons p rest ih =>
    obtain ⟨k₀, v₀⟩ := p
    by_cases h0 : k₀ = k
    · subst h0
      rw [mapSet, if_pos rfl, mapKeys_cons, mapKeys_cons]
    · rw [mapKeys_cons, List.mem_cons] at h
      rcases h with h | h
      · exact absurd h.symm h0
      · rw [mapSet, if_neg h0, mapKeys_cons, mapKeys_cons, ih h]

theorem mapKeys_mapSet_of_not_mem (m : List (K × V)) (k : K) (v : V)
    (h : k ∉ mapKeys m) : mapKeys (mapSet m k v) = mapKeys m ++ [k] := by
  induction m with
  | nil => simp [mapSet, mapKeys]
  | cons p rest ih =>
    obtain ⟨k₀, v₀⟩ := p
    rw [mapKeys_cons, List.mem_cons] at h
    push_neg at h
    have h0 : ¬ k₀ = k := fun hh => h.1 hh.symm
    rw [mapSet, if_neg h0, mapKeys_cons, mapKeys_cons, ih h.2, List.cons_append]

theorem nodup_mapKeys_mapSet (m : List (K × V)) (k : K) (v : V)
    (hnd : (mapKeys m).Nodup) : (mapKeys (mapSet m k v)).Nodup := by
  by_cases h : k ∈ mapKeys m
  · rwa [mapKeys_mapSet_of_mem m k v h]
  · rw [mapKeys_mapSet_of_not_mem m k v h]
    simpa [List.nodup_append] using ⟨hnd, fun hk => h hk⟩

theorem mapKeys_mapDelete_subset (m : List (K × V)) (k : K) :
    ∀ k' ∈ mapKeys (mapDelete m k), k' ∈ mapKeys m := by
  induction m with
  | nil => simp [mapDelete]
  | cons p rest ih =>
    obtain ⟨k₀, v₀⟩ := p
    intro k' hk'
    by_cases h0 : k₀ = k
    · subst h0
      rw [mapDelete, if_pos rfl] at hk'
      rw [mapKeys_cons]
      exact List.mem_cons_of_mem _ hk'
    · rw [mapDelete, if_neg h0, mapKeys_cons, List.mem_cons] at hk'
      rw [mapKeys_cons, List.mem_cons]
      rcases hk' with h | h
      · exact Or.inl h
      · exact Or.inr (ih k' h)

theorem nodup_mapKeys_mapDelete (m : List (K × V)) (k : K)
    (hnd : (mapKeys m).Nodup) : (mapKeys (mapDelete m k)).Nodup := by
  induction m with
  | nil => simp [mapDelete, mapKeys]
  | cons p rest ih =>
    obtain ⟨k₀, v₀⟩ := p
    rw [mapKeys_cons, List.nodup_cons] at hnd
    by_cases h0 : k₀ = k
    · subst h0
      rw [mapDelete, if_pos rfl]
      exact hnd.2
    · rw [mapDelete, if_neg h0, mapKeys_cons, List.nodup_cons]
      exact ⟨fun hk => hnd.1 (mapKeys_mapDelete_subset rest k k₀ hk), ih hnd.2⟩

theorem mem_of_mem_mapSet (m : List (K × V)) (k : K) (v : V) :
    ∀ p ∈ mapSet m k v, p = (k, v) ∨ p ∈ m := by
  induction m with
  | nil => simp [mapSet]
  | cons q rest ih =>
    obtain ⟨k₀, v₀⟩ := q
    intro p hp
    by_cases h0 : k₀ = k
    · rw [mapSet, if_pos h0, List.mem_cons] at hp
      rcases hp with h | h
      · exact Or.inl h
      · exact Or.inr (List.mem_cons_of_mem _ h)
    · rw [mapSet, if_neg h0, List.mem_cons] at hp
      rcases hp with h | h
      · exact Or.inr (by simp [h])
      · rcases ih p h with h' | h'
        · exact Or.inl h'
        · exact Or.inr (List.mem_cons_of_mem _ h')

theorem mem_of_mem_mapDelete (m : List (K × V)) (k : K) :
    ∀ p ∈ mapDelete m k, p ∈ m := by
  induction m with
  | nil => simp [mapDelete]
  | cons q rest ih =>
    obtain ⟨k₀, v₀⟩ := q
    intro p hp
    by_cases h0 : k₀ = k
    · rw [mapDelete, if_pos h0] at hp
      exact List.mem_cons_of_mem _ hp
    · rw [mapDelete, if_neg h0, List.mem_cons] at hp
      rcases hp with h | h
      · simp [h]
      · exact List.mem_cons_of_mem _ (ih p h)

theorem mapGet_mem (m : List (K × V)) (k : K) {v : V}
    (h : mapGet m k = some v) : (k, v) ∈ m := by
  induction m with
  | nil => simp [mapGet] at h
  | cons q rest ih =>
    obtain ⟨k₀, v₀⟩ := q
    by_cases h0 : k₀ = k
    · subst h0
      rw [mapGet, if_pos rfl, Option.some.injEq] at h
      simp [h]
    · rw [mapGet, if_neg h0] at h
      exact List.mem_cons_of_mem _ (ih h)

end AssocMap

/-! Data model of `auth-service.ts` (lines 28-98). -/

/-- Session identifier. In the source it is the string
`session_${Date.now()}_${uuidv4()}` (auth-service.ts line 115); that string
is injective in the pair (timestamp, uuid), so it is modelled as the pair.
The `uuid` component records which draw of `uuidv4()` produced it; distinct
draws are modelled as distinct values, which is the code's (probabilistic)
assumption. -/
structure SessionId where
  ts : Nat
  uuid : Nat
deriving DecidableEq, Repr

/-- UserInfo (auth-service.ts lines 71-78). The `metadata` record field is
omitted: no code path the claims concern reads or writes it on users. -/
structure UserInfo where
  id : String
  email : Option String := none
  name : Option String := none
  permissions : List String := []
  roles : List String := []
deriving DecidableEq, Repr

/-- Session (auth-service.ts lines 89-98). `metadata` is an opaque map,
always created empty; modelled as a list of pairs. -/
structure Session where
  id : SessionId
  userId : String
  user : UserInfo
  createdAt : Nat
  expiresAt : Nat
  lastAccessedAt : Nat
  permissions : List String
  metadata : List (String × String)
deriving DecidableEq, Repr

/-- The mutable state of a `SessionManager` (auth-service.ts lines 104-112):
the session table, the configured `sessionTimeout`, and the modelled
`uuidv4` draw counter. `cleanupInterval` and the background timer only
affect the periodic sweep, which is not involved in any claim. -/
structure StoreState where
  sessionTimeout : Nat
  sessions : List (SessionId × Session)
  nextUuid : Nat
deriving DecidableEq, Repr

/-- A freshly constructed `SessionManager` with the given `sessionTimeout`. -/
def initStore (sessionTimeout : Nat) : StoreState :=
  { sessionTimeout := sessionTimeout, sessions := [], nextUuid := 0 }

namespace SessionManager

/-- SessionManager.createSession (auth-service.ts lines 114-131). -/
def createSession (st : StoreState) (user : UserInfo) (permissions : List String)
    (now : Nat) : Session × StoreState :=
  let sessionId : SessionId := { ts := now, uuid := st.nextUuid }
  let session : Session :=
    { id := sessionId
      userId := user.id
      user := user
      createdAt := now
      expiresAt := now + st.sessionTimeout
      lastAccessedAt := now
      permissions := permissions
      metadata := [] }
  (session,
    { st with
        sessions := mapSet st.sessions sessionId session
        nextUuid := st.nextUuid + 1 })

/-- SessionManager.validateSession (auth-service.ts lines 133-146): absent
ids return `none`; an entry with `expiresAt < now` is deleted and `none` is
returned; otherwise `lastAccessedAt` is updated in place and the session is
returned. -/
def validateSession (st : StoreState) (sessionId : SessionId) (now : Nat) :
    Option Session × StoreState :=
  match mapGet st.sessions sessionId with
  | none => (none, st)
  | some session =>
    if session.expiresAt < now then
      (none, { st with sessions := mapDelete st.sessions sessionId })
    else
      let updated := { session with lastAccessedAt := now }
      (some updated, { st with sessions := mapSet st.sessions sessionId updated })

/-- SessionManager.refreshSession (auth-service.ts lines 148-156): validate,
then create a replacement session from the old session's user and
permissions, then delete the old id. -/
def refreshSession (st : StoreState) (sessionId : SessionId) (now : Nat) :
    Option Session × StoreState :=
  match validateSession st sessionId now with
  | (none, st1) => (none, st1)
  | (some session, st1) =>
    let res := createSession st1 session.user session.permissions now
    (some res.1, { res.2 with sessions := mapDelete res.2.sessions sessionId })

/-- SessionManager.destroySession (auth-service.ts lines 158-160):
`Map.delete` returns whether an entry was removed. -/
def destroySession (st : StoreState) (sessionId : SessionId) : Bool × StoreState :=
  ((mapGet st.sessions sessionId).isSome,
    { st with sessions := mapDelete st.sessions sessionId })

end SessionManager

/-- One external call into a `SessionManager`, for reachability arguments. -/
inductive StoreOp where
  | create (user : UserInfo) (permissions : List String) (now : Nat)
  | validate (sessionId : SessionId) (now : Nat)
  | refresh (sessionId : SessionId) (now : Nat)
  | destroy (sessionId : SessionId)

/-- The state reached after one operation. -/
def applyOp (st : StoreState) : StoreOp → StoreState
  | .create user permissions now => (SessionManager.createSession st user permissions now).2
  | .validate sessionId now => (SessionManager.validateSession st sessionId now).2
  | .refresh sessionId now => (SessionManager.refreshSession st sessionId now).2
  | .destroy sessionId => (SessionManager.destroySession st sessionId).2

/-- The state reached after a sequence of operations. -/
def runOps (st : StoreState) : List StoreOp → StoreState
  | [] => st
  | op :: ops => runOps (applyOp st op) ops

/-- Record-level store invariant: each stored session's `id` field is its
key, its `expiresAt` is `createdAt + sessionTimeout`, and its uuid component
precedes the draw counter. -/
def sessionOk (sessionTimeout nextUuid : Nat) (p : SessionId × Session) : Prop :=
  p.2.id = p.1 ∧ p.2.expiresAt = p.2.createdAt + sessionTimeout ∧
    p.1.uuid < nextUuid

/-- Store invariant: keys are unique and every record satisfies `sessionOk`. -/
def storeInv (st : StoreState) : Prop :=
  (mapKeys st.sessions).Nodup ∧
    ∀ p ∈ st.sessions, sessionOk st.sessionTimeout st.nextUuid p

instance (sessionTimeout nextUuid : Nat) (p : SessionId × Session) :
    Decidable (sessionOk sessionTimeout nextUuid p) := by
  unfold sessionOk
  exact inferInstance

instance (st : StoreState) : Decidable (storeInv st) := by
  unfold storeInv
  exact inferInstance

theorem sessionOk_mono {t n n' : Nat} {p : SessionId × Session}
    (h : sessionOk t n p) (hle : n ≤ n') : sessionOk t n' p :=
  ⟨h.1, h.2.1, lt_of_lt_of_le h.2.2 hle⟩

/-- A freshly drawn id is not a key of any table satisfying the invariant. -/
theorem fresh_id_not_mem {st : StoreState} (hinv : storeInv st) (ts : Nat) :
    (⟨ts, st.nextUuid⟩ : SessionId) ∉ mapKeys st.sessions := by
  intro hmem
  obtain ⟨v, hv⟩ := by
    simpa [mapKeys, List.mem_map] using hmem
  exact lt_irrefl _ ((hinv.2 _ hv).2.2)

theorem storeInv_create (st : StoreState) (user : UserInfo)
    (permissions : List String) (now : Nat) (hinv : storeInv st) :
    storeInv (SessionManager.createSession st user permissions now).2 := by
  unfold SessionManager.createSession
  constructor
  · exact nodup_mapKeys_mapSet _ _ _ hinv.1
  · intro p hp
    rcases mem_of_mem_mapSet _ _ _ p hp with h | h
    · subst h
      exact ⟨rfl, rfl, Nat.lt_succ_self _⟩
    · exact sessionOk_mono (hinv.2 p h) (Nat.le_succ _)

theorem storeInv_validate (st : StoreState) (sessionId : SessionId) (now : Nat)
    (hinv : storeInv st) :
    storeInv (SessionManager.validateSession st sessionId now).2 := by
  unfold SessionManager.validateSession
  cases hget : mapGet st.sessions sessionId with
  | none => exact hinv
  | some session =>
    have hok := hinv.2 _ (mapGet_mem _ _ hget)
    by_cases hexp : session.expiresAt < now
    · simp only [hexp, if_true]
      exact ⟨nodup_mapKeys_mapDelete _ _ hinv.1,
        fun p hp => hinv.2 p (mem_of_mem_mapDelete _ _ p hp)⟩
    · simp only [hexp, if_false]
      refine ⟨nodup_mapKeys_mapSet _ _ _ hinv.1, fun p hp => ?_⟩
      rcases mem_of_mem_mapSet _ _ _ p hp with h | h
      · subst h
        exact ⟨hok.1, hok.2.1, hok.2.2⟩
      · exact hinv.2 p h

theorem storeInv_destroy (st : StoreState) (sessionId : SessionId)
    (hinv : storeInv st) :
    storeInv (SessionManager.destroySession st sessionId).2 := by
  unfold SessionManager.destroySession
  exact ⟨nodup_mapKeys_mapDelete _ _ hinv.1,
    fun p hp => hinv.2 p (mem_of_mem_mapDelete _ _ p hp)⟩

theorem storeInv_delete (st : StoreState) (sessionId : SessionId)
    (hinv : storeInv st) :
    storeInv { st with sessions := mapDelete st.sessions sessionId } :=
  ⟨nodup_mapKeys_mapDelete _ _ hinv.1,
    fun p hp => hinv.2 p (mem_of_mem_mapDelete _ _ p hp)⟩

theorem storeInv_refresh (st : StoreState) (sessionId : SessionId) (now : Nat)
    (hinv : storeInv st) :
    storeInv (SessionManager.refreshSession st sessionId now).2 := by
  unfold SessionManager.refreshSession
  cases hval : SessionManager.validateSession st sessionId now with
  | mk r st1 =>
    have hinv1 : storeInv st1 := by
      have := storeInv_validate st sessionId now hinv
      rwa [hval] at this
    cases r with
    | none => exact hinv1
    | some session =>
      exact storeInv_delete _ _ (storeInv_create st1 session.user session.permissions now hinv1)

theorem storeInv_applyOp (st : StoreState) (op : StoreOp) (hinv : storeInv st) :
    storeInv (applyOp st op) := by
  cases op with
  | create user permissions now => exact storeInv_create st user permissions now hinv
  | validate sessionId now => exact storeInv_validate st sessionId now hinv
  | refresh sessionId now => exact storeInv_refresh st sessionId now hinv
  | destroy sessionId => exact storeInv_destroy st sessionId hinv

theorem storeInv_runOps (st : StoreState) (ops : List StoreOp) (hinv : storeInv st) :
    storeInv (runOps st ops) := by
  induction ops generalizing st with
  | nil => exact hinv
  | cons op ops ih => exact ih _ (storeInv_applyOp st op hinv)

theorem storeInv_init (sessionTimeout : Nat) : storeInv (initStore sessionTimeout) := by
  constructor
  · simp [initStore, mapKeys]
  · intro p hp
    simp [initStore] at hp

theorem mem_mapKeys_mapSet {K V : Type} [DecidableEq K]
    {m : List (K × V)} {k k' : K} {v : V}
    (h : k' ∈ mapKeys (mapSet m k v)) : k' = k ∨ k' ∈ mapKeys m := by
  simp only [mapKeys, List.mem_map] at h
  obtain ⟨p, hp, hpk⟩ := h
  rcases mem_of_mem_mapSet _ _ _ p hp with h1 | h1
  · left
    rw [← hpk, h1]
  · right
    simp only [mapKeys, List.mem_map]
    exact ⟨p, h1, hpk⟩

theorem validate_not_mem (st : StoreState) (sessionId : SessionId) (now : Nat)
    (h : sessionId ∉ mapKeys st.sessions) :
    (SessionManager.validateSession st sessionId now).1 = none := by
  unfold SessionManager.validateSession
  rw [(mapGet_eq_none_iff _ _).2 h]

theorem validate_nextUuid (st : StoreState) (sessionId : SessionId) (now : Nat) :
    (SessionManager.validateSession st sessionId now).2.nextUuid = st.nextUuid := by
  unfold SessionManager.validateSession
  cases mapGet st.sessions sessionId with
  | none => rfl
  | some session =>
    by_cases h : session.expiresAt < now <;> simp [h]

theorem validate_sessionTimeout (st : StoreState) (sessionId : SessionId) (now : Nat) :
    (SessionManager.validateSession st sessionId now).2.sessionTimeout = st.sessionTimeout := by
  unfold SessionManager.validateSession
  cases mapGet st.sessions sessionId with
  | none => rfl
  | some session =>
    by_cases h : session.expiresAt < now <;> simp [h]

theorem mapGet_validate_ne (st : StoreState) {sessionId id : SessionId} (now : Nat)
    (h : id ≠ sessionId) :
    mapGet (SessionManager.validateSession st sessionId now).2.sessions id =
      mapGet st.sessions id := by
  unfold SessionManager.validateSession
  cases mapGet st.sessions sessionId with
  | none => rfl
  | some session =>
    by_cases hexp : session.expiresAt < now
    · simp only [hexp, if_true]
      exact mapGet_mapDelete_ne _ h
    · simp only [hexp, if_false]
      exact mapGet_mapSet_ne _ _ h

/-- A dead id: not in the table, and its uuid component already drawn. -/
def deadId (id : SessionId) (st : StoreState) : Prop :=
  id ∉ mapKeys st.sessions ∧ id.uuid < st.nextUuid

theorem deadId_create (st : StoreState) (user : UserInfo)
    (permissions : List String) (now : Nat) (id : SessionId)
    (hdead : deadId id st) :
    deadId id (SessionManager.createSession st user permissions now).2 := by
  obtain ⟨hmem, hlt⟩ := hdead
  refine ⟨?_, Nat.lt_succ_of_lt hlt⟩
  intro hk
  rw [SessionManager.createSession] at hk
  simp only at hk
  rcases mem_mapKeys_mapSet hk with h | h
  · exact absurd (congrArg SessionId.uuid h) (by simpa using Nat.ne_of_lt hlt)
  · exact hmem h

theorem deadId_validate (st : StoreState) (sessionId : SessionId) (now : Nat)
    (id : SessionId) (hdead : deadId id st) :
    deadId id (SessionManager.validateSession st sessionId now).2 := by
  obtain ⟨hmem, hlt⟩ := hdead
  refine ⟨?_, by rw [validate_nextUuid]; exact hlt⟩
  intro hk
  apply hmem
  rcases hget : mapGet st.sessions sessionId with _ | session
  · rw [SessionManager.validateSession] at hk
    rw [hget] at hk
    exact hk
  · by_cases hexp : session.expiresAt < now
    · simp only [SessionManager.validateSession, hget, if_pos hexp] at hk
      exact mapKeys_mapDelete_subset _ _ _ hk
    · simp only [SessionManager.validateSession, hget, if_neg hexp] at hk
      rcases mem_mapKeys_mapSet hk with h | h
      · subst h
        exact mem_mapKeys_of_mapGet hget
      · exact h

theorem deadId_destroy (st : StoreState) (sessionId : SessionId)
    (id : SessionId) (hdead : deadId id st) :
    deadId id (SessionManager.destroySession st sessionId).2 := by
  obtain ⟨hmem, hlt⟩ := hdead
  exact ⟨fun hk => hmem (mapKeys_mapDelete_subset _ _ _ hk), hlt⟩

theorem deadId_applyOp (st : StoreState) (op : StoreOp) (id : SessionId)
    (hdead : deadId id st) : deadId id (applyOp st op) := by
  cases op with
  | create user permissions now => exact deadId_create st user permissions now id hdead
  | validate sessionId now => exact deadId_validate st sessionId now id hdead
  | refresh sessionId now =>
    simp only [applyOp, SessionManager.refreshSession]
    rcases hval : SessionManager.validateSession st sessionId now with ⟨r, st1⟩
    have hdead1 : deadId id st1 := by
      have := deadId_validate st sessionId now id hdead
      rwa [hval] at this
    cases r with
    | none => exact hdead1
    | some session =>
      have hdead2 := deadId_create st1 session.user session.permissions now id hdead1
      exact ⟨fun hk => hdead2.1 (mapKeys_mapDelete_subset _ _ _ hk), hdead2.2⟩
  | destroy sessionId => exact deadId_destroy st sessionId id hdead

theorem deadId_runOps (st : StoreState) (ops : List StoreOp) (id : SessionId)
    (hdead : deadId id st) : deadId id (runOps st ops) := by
  induction ops generalizing st with
  | nil => exact hdead
  | cons op ops ih => exact ih _ (deadId_applyOp st op id hdead)

/-- Claim C3's non-mutation relation: all fields agree except possibly
`lastAccessedAt`. -/
def sameExceptLastAccessed (s s' : Session) : Prop :=
  s'.id = s.id ∧ s'.userId = s.userId ∧ s'.user = s.user ∧
    s'.createdAt = s.createdAt ∧ s'.expiresAt = s.expiresAt ∧
    s'.permissions = s.permissions ∧ s'.metadata = s.metadata

instance (s s' : Session) : Decidable (sameExceptLastAccessed s s') := by
  unfold sameExceptLastAccessed
  exact inferInstance

theorem sameExceptLastAccessed_refl (s : Session) : sameExceptLastAccessed s s :=
  ⟨rfl, rfl, rfl, rfl, rfl, rfl, rfl⟩

theorem entries_create (st : StoreState) (user : UserInfo)
    (permissions : List String) (now : Nat) (id : SessionId) {s s' : Session}
    (hinv : storeInv st)
    (hb : mapGet st.sessions id = some s)
    (ha : mapGet (SessionManager.createSession st user permissions now).2.sessions id = some s') :
    s' = s := by
  have hne : id ≠ ⟨now, st.nextUuid⟩ := by
    intro h
    exact fresh_id_not_mem hinv now (h ▸ mem_mapKeys_of_mapGet hb)
  rw [SessionManager.createSession] at ha
  simp only at ha
  rw [mapGet_mapSet_ne _ _ hne, hb] at ha
  exact (Option.some.inj ha).symm

theorem entries_validate (st : StoreState) (sessionId : SessionId) (now : Nat)
    (id : SessionId) {s s' : Session} (hinv : storeInv st)
    (hb : mapGet st.sessions id = some s)
    (ha : mapGet (SessionManager.validateSession st sessionId now).2.sessions id = some s') :
    sameExceptLastAccessed s s' := by
  by_cases hid : id = sessionId
  · subst hid
    by_cases hexp : s.expiresAt < now
    · simp only [SessionManager.validateSession, hb, if_pos hexp] at ha
      rw [mapGet_mapDelete_self _ _ hinv.1] at ha
      exact absurd ha (by simp)
    · simp only [SessionManager.validateSession, hb, if_neg hexp] at ha
      rw [mapGet_mapSet_self] at ha
      rw [← Option.some.inj ha]
      exact ⟨rfl, rfl, rfl, rfl, rfl, rfl, rfl⟩
  · rw [mapGet_validate_ne st now hid, hb] at ha
    cases Option.some.inj ha
    exact sameExceptLastAccessed_refl s

theorem entries_applyOp (st : StoreState) (op : StoreOp) (id : SessionId)
    {s s' : Session} (hinv : storeInv st)
    (hb : mapGet st.sessions id = some s)
    (ha : mapGet (applyOp st op).sessions id = some s') :
    sameExceptLastAccessed s s' := by
  cases op with
  | create user permissions now =>
    rw [entries_create st user permissions now id hinv hb ha]
    exact sameExceptLastAccessed_refl s
  | validate sessionId now => exact entries_validate st sessionId now id hinv hb ha
  | destroy sessionId =>
    simp only [applyOp, SessionManager.destroySession] at ha
    by_cases hid : id = sessionId
    · subst hid
      rw [mapGet_mapDelete_self _ _ hinv.1] at ha
      exact absurd ha (by simp)
    · rw [mapGet_mapDelete_ne _ hid, hb] at ha
      cases Option.some.inj ha
      exact sameExceptLastAccessed_refl s
  | refresh sessionId now =>
    simp only [applyOp, SessionManager.refreshSession] at ha
    rcases hval : SessionManager.validateSession st sessionId now with ⟨r, st1⟩
    have hinv1 : storeInv st1 := by
      have := storeInv_validate st sessionId now hinv
      rwa [hval] at this
    rw [hval] at ha
    cases r with
    | none =>
      simp only at ha
      exact entries_validate st sessionId now id hinv hb (by rw [hval]; exact ha)
    | some session =>
      simp only at ha
      by_cases hid : id = sessionId
      · subst hid
        have hinv2 : storeInv (SessionManager.createSession st1 session.user session.permissions now).2 :=
          storeInv_create st1 session.user session.permissions now hinv1
        rw [mapGet_mapDelete_self _ _ hinv2.1] at ha
        exact absurd ha (by simp)
      · rw [mapGet_mapDelete_ne _ hid] at ha
        have hb1 : mapGet st1.sessions id = some s := by
          have := @mapGet_validate_ne st sessionId id now hid
          rw [hval] at this
          simp only at this
          rw [this, hb]
        rw [entries_create st1 session.user session.permissions now id hinv1 hb1 ha]
        exact sameExceptLastAccessed_refl s

theorem create_sessionTimeout (st : StoreState) (user : UserInfo)
    (permissions : List String) (now : Nat) :
    (SessionManager.createSession st user permissions now).2.sessionTimeout =
      st.sessionTimeout := rfl

theorem applyOp_sessionTimeout (st : StoreState) (op : StoreOp) :
    (applyOp st op).sessionTimeout = st.sessionTimeout := by
  cases op with
  | create user permissions now => rfl
  | validate sessionId now => exact validate_sessionTimeout st sessionId now
  | destroy sessionId => rfl
  | refresh sessionId now =>
    simp only [applyOp, SessionManager.refreshSession]
    rcases hval : SessionManager.validateSession st sessionId now with ⟨r, st1⟩
    have h1 : st1.sessionTimeout = st.sessionTimeout := by
      have := validate_sessionTimeout st sessionId now
      rwa [hval] at this
    cases r with
    | none => exact h1
    | some session => exact h1

theorem runOps_sessionTimeout (st : StoreState) (ops : List StoreOp) :
    (runOps st ops).sessionTimeout = st.sessionTimeout := by
  induction ops generalizing st with
  | nil => rfl
  | cons op ops ih => rw [runOps, ih, applyOp_sessionTimeout]

/-! Claims C1-C3: session lifecycle. -/

/-- Counterexample to claim C1 as stated: with `sessionTimeout = 1000`, for a
session created at `T = 0`, `validateSession` at `t = T + 1000 = 1000` still
returns the session (the code removes an entry only when `expiresAt < now`,
strictly), whereas the claim asserts every call at `t ≥ T + 1000` returns
`NotFound` and that `expiresAt <= now` counts as expired. -/
theorem c1_counterexample :
    ((SessionManager.validateSession
        (SessionManager.createSession (initStore 1000) { id := "user_1" } [] 0).2
        (SessionManager.createSession (initStore 1000) { id := "user_1" } [] 0).1.id
        1000).1).isSome = true := by decide

/-- Claim C1 (amended): with `sessionTimeout = 1000` ms, a session created at
time `T` is returned by every `validate` call at `t ≤ T + 1000` (inclusive,
with `lastAccessedAt` updated to `t`), and every call at `t ≥ T + 1001`
removes the entry and returns `NotFound`: `validateSession` treats a session
as expired exactly when `expiresAt < now` (strictly). -/
theorem c1_session_expiry_boundary (st : StoreState) (user : UserInfo)
    (permissions : List String) (T t : Nat)
    (hinv : storeInv st) (htimeout : st.sessionTimeout = 1000) :
    (t ≤ T + 1000 →
      (SessionManager.validateSession
          (SessionManager.createSession st user permissions T).2
          (SessionManager.createSession st user permissions T).1.id t).1 =
        some { (SessionManager.createSession st user permissions T).1 with
                 lastAccessedAt := t }) ∧
    (T + 1000 < t →
      (SessionManager.validateSession
          (SessionManager.createSession st user permissions T).2
          (SessionManager.createSession st user permissions T).1.id t).1 = none ∧
      mapGet (SessionManager.validateSession
          (SessionManager.createSession st user permissions T).2
          (SessionManager.createSession st user permissions T).1.id t).2.sessions
        (SessionManager.createSession st user permissions T).1.id = none) := by
  have hget : mapGet (SessionManager.createSession st user permissions T).2.sessions
      (SessionManager.createSession st user permissions T).1.id =
      some (SessionManager.createSession st user permissions T).1 := by
    simp only [SessionManager.createSession]
    exact mapGet_mapSet_self _ _ _
  have hexp : (SessionManager.createSession st user permissions T).1.expiresAt = T + 1000 := by
    simp only [SessionManager.createSession, htimeout]
  constructor
  · intro hle
    simp only [SessionManager.validateSession, hget, hexp]
    rw [if_neg (by omega)]
  · intro hgt
    have hnodup : (mapKeys (SessionManager.createSession st user permissions T).2.sessions).Nodup :=
      (storeInv_create st user permissions T hinv).1
    simp only [SessionManager.validateSession, hget, hexp]
    rw [if_pos (by omega)]
    exact ⟨rfl, mapGet_mapDelete_self _ _ hnodup⟩

/-- Witness for C1's amended theorem at a concrete instance: creation at
`T = 3`, a successful validation at `t = 1003` and an expired one at
`t = 1004`. -/
theorem c1_session_expiry_boundary_witness :
    (SessionManager.validateSession
        (SessionManager.createSession (initStore 1000) { id := "user_1" } [] 3).2
        (SessionManager.createSession (initStore 1000) { id := "user_1" } [] 3).1.id
        1003).1 =
      some { (SessionManager.createSession (initStore 1000) { id := "user_1" } [] 3).1 with
               lastAccessedAt := 1003 } ∧
    (SessionManager.validateSession
        (SessionManager.createSession (initStore 1000) { id := "user_1" } [] 3).2
        (SessionManager.createSession (initStore 1000) { id := "user_1" } [] 3).1.id
        1004).1 = none :=
  ⟨(c1_session_expiry_boundary (initStore 1000) { id := "user_1" } [] 3 1003
      (by decide) rfl).1 (by omega),
   ((c1_session_expiry_boundary (initStore 1000) { id := "user_1" } [] 3 1004
      (by decide) rfl).2 (by omega)).1⟩

/-- Claim C2: once `refreshSession` succeeds with a new session, the new id
differs from the old one, validating the new id (at the refresh instant)
succeeds, and the old id never validates again, no matter which further
operations run on the store. -/
theorem c2_refresh_rotation (st : StoreState) (sessionId : SessionId) (now : Nat)
    (newSession : Session) (hinv : storeInv st)
    (h : (SessionManager.refreshSession st sessionId now).1 = some newSession) :
    newSession.id ≠ sessionId ∧
    (SessionManager.validateSession (SessionManager.refreshSession st sessionId now).2
        newSession.id now).1 = some newSession ∧
    (∀ ops t,
      (SessionManager.validateSession
          (runOps (SessionManager.refreshSession st sessionId now).2 ops)
          sessionId t).1 = none) := by
  rcases hval : SessionManager.validateSession st sessionId now with ⟨r, st1⟩
  cases r with
  | none =>
    rw [SessionManager.refreshSession, hval] at h
    simp at h
  | some session =>
    have hinv1 : storeInv st1 := by
      have := storeInv_validate st sessionId now hinv
      rwa [hval] at this
    simp only [SessionManager.refreshSession, hval] at h ⊢
    have hnew : newSession =
        (SessionManager.createSession st1 session.user session.permissions now).1 :=
      (Option.some.inj h).symm
    rcases hget : mapGet st.sessions sessionId with _ | sess0
    · exfalso
      simp [SessionManager.validateSession, hget] at hval
    · have hlt : sessionId.uuid < st.nextUuid :=
        (hinv.2 _ (mapGet_mem _ _ hget)).2.2
      by_cases hexp : sess0.expiresAt < now
      · exfalso
        simp [SessionManager.validateSession, hget, hexp] at hval
      · have hval2 := hval
        simp only [SessionManager.validateSession, hget, if_neg hexp] at hval2
        simp only [Prod.mk.injEq, Option.some.injEq] at hval2
        obtain ⟨hsession, hst1⟩ := hval2
        have hnext1 : st1.nextUuid = st.nextUuid := by rw [← hst1]
        have hidne : newSession.id ≠ sessionId := by
          intro heq
          have hq : newSession.id.uuid = st.nextUuid := by
            rw [hnew]
            exact hnext1
          rw [heq] at hq
          omega
        refine ⟨hidne, ?_, ?_⟩
        · -- validating the new id at the refresh instant
          have hgetnew :
              mapGet (mapDelete
                  (SessionManager.createSession st1 session.user session.permissions now).2.sessions
                  sessionId) newSession.id =
                some newSession := by
            rw [mapGet_mapDelete_ne _ hidne, hnew]
            exact mapGet_mapSet_self _ _ _
          have hexpnew : newSession.expiresAt = now + st1.sessionTimeout := by
            rw [hnew]
            rfl
          simp only [SessionManager.validateSession, hgetnew, hexpnew]
          rw [if_neg (by omega)]
          simp only [Option.some.injEq]
          rw [hnew]
          rfl
        · -- the old id is dead forever
          have hinv2 : storeInv
              (SessionManager.createSession st1 session.user session.permissions now).2 :=
            storeInv_create st1 session.user session.permissions now hinv1
          have hdead : deadId sessionId
              { (SessionManager.createSession st1 session.user session.permissions now).2 with
                  sessions := mapDelete
                    (SessionManager.createSession st1 session.user session.permissions now).2.sessions
                    sessionId } := by
            constructor
            · rw [← mapGet_eq_none_iff]
              exact mapGet_mapDelete_self _ _ hinv2.1
            · show sessionId.uuid < st1.nextUuid + 1
              omega
          intro ops t
          exact validate_not_mem _ _ _ (deadId_runOps _ ops sessionId hdead).1

/-- Witness for C2 at a concrete instance: a store with one session
(created at time 5, timeout 1000) refreshed at time 7. -/
theorem c2_refresh_rotation_witness :
    ({ id := { ts := 7, uuid := 1 }, userId := "alice", user := { id := "alice" },
       createdAt := 7, expiresAt := 1007, lastAccessedAt := 7,
       permissions := ["basic"], metadata := [] } : Session).id ≠ { ts := 5, uuid := 0 } ∧
    (SessionManager.validateSession
        (SessionManager.refreshSession
          (SessionManager.createSession (initStore 1000) { id := "alice" } ["basic"] 5).2
          { ts := 5, uuid := 0 } 7).2
        ({ id := { ts := 7, uuid := 1 }, userId := "alice", user := { id := "alice" },
           createdAt := 7, expiresAt := 1007, lastAccessedAt := 7,
           permissions := ["basic"], metadata := [] } : Session).id 7).1 =
      some { id := { ts := 7, uuid := 1 }, userId := "alice", user := { id := "alice" },
             createdAt := 7, expiresAt := 1007, lastAccessedAt := 7,
             permissions := ["basic"], metadata := [] } ∧
    (∀ ops t,
      (SessionManager.validateSession
          (runOps (SessionManager.refreshSession
            (SessionManager.createSession (initStore 1000) { id := "alice" } ["basic"] 5).2
            { ts := 5, uuid := 0 } 7).2 ops)
          { ts := 5, uuid := 0 } t).1 = none) :=
  c2_refresh_rotation
    (SessionManager.createSession (initStore 1000) { id := "alice" } ["basic"] 5).2
    { ts := 5, uuid := 0 } 7
    { id := { ts := 7, uuid := 1 }, userId := "alice", user := { id := "alice" },
      createdAt := 7, expiresAt := 1007, lastAccessedAt := 7,
      permissions := ["basic"], metadata := [] }
    (by decide) (by decide)

/-- Claim C3: in every state reachable by create/validate/refresh/destroy
from an empty store with positive `sessionTimeout`, keys are unique and
every stored record satisfies `expiresAt > createdAt`; moreover any record
that survives one further operation is unchanged in all fields except
possibly `lastAccessedAt`. -/
theorem c3_session_store_invariant (sessionTimeout : Nat) (ops : List StoreOp)
    (op : StoreOp) (id : SessionId) (s s' : Session)
    (hpos : 0 < sessionTimeout)
    (hb : mapGet (runOps (initStore sessionTimeout) ops).sessions id = some s)
    (ha : mapGet (applyOp (runOps (initStore sessionTimeout) ops) op).sessions id = some s') :
    (mapKeys (runOps (initStore sessionTimeout) ops).sessions).Nodup ∧
    (∀ p ∈ (runOps (initStore sessionTimeout) ops).sessions,
       p.2.createdAt < p.2.expiresAt) ∧
    sameExceptLastAccessed s s' := by
  have hinv := storeInv_runOps (initStore sessionTimeout) ops (storeInv_init sessionTimeout)
  refine ⟨hinv.1, fun p hp => ?_, entries_applyOp _ op id hinv hb ha⟩
  have h := (hinv.2 p hp).2.1
  have ht : (runOps (initStore sessionTimeout) ops).sessionTimeout = sessionTimeout :=
    runOps_sessionTimeout _ _
  rw [ht] at h
  omega

/-- Witness for C3: one creation (time 5, timeout 1000), then a validation
at time 7 which only bumps `lastAccessedAt`. -/
theorem c3_session_store_invariant_witness :
    (0 : Nat) < 1000 ∧
    ((mapKeys (runOps (initStore 1000)
        [StoreOp.create { id := "alice" } ["basic"] 5]).sessions).Nodup ∧
     (∀ p ∈ (runOps (initStore 1000)
        [StoreOp.create { id := "alice" } ["basic"] 5]).sessions,
        p.2.createdAt < p.2.expiresAt) ∧
     sameExceptLastAccessed
       { id := { ts := 5, uuid := 0 }, userId := "alice", user := { id := "alice" },
         createdAt := 5, expiresAt := 1005, lastAccessedAt := 5,
         permissions := ["basic"], metadata := [] }
       { id := { ts := 5, uuid := 0 }, userId := "alice", user := { id := "alice" },
         createdAt := 5, expiresAt := 1005, lastAccessedAt := 7,
         permissions := ["basic"], metadata := [] }) :=
  ⟨by decide,
   c3_session_store_invariant 1000 [.create { id := "alice" } ["basic"] 5]
     (.validate { ts := 5, uuid := 0 } 7) { ts := 5, uuid := 0 } _ _
     (by decide) (by decide) (by decide)⟩

/-! Authentication service (auth-service.ts lines 266-595). -/

/-- The request method union type (auth-service.ts line 44). -/
inductive AuthMethod where
  | apiKey
  | jwt
  | oauth2
deriving DecidableEq, Repr

/-- AuthRequest (auth-service.ts lines 43-52). Optional string fields model
TypeScript optional properties; `none` and `some ""` are both falsy. -/
structure AuthRequest where
  method : AuthMethod
  apiKey : Option String := none
  token : Option String := none
  clientId : Option String := none
  clientSecret : Option String := none
  redirectUri : Option String := none
  provider : Option String := none
  permissions : Option (List String) := none
deriving DecidableEq, Repr

/-- JavaScript truthiness of an optional string. -/
def truthyStr : Option String → Bool
  | none => false
  | some s => !s.isEmpty

/-- The structured error of an `AuthResult` (auth-service.ts lines 64-68).
The `timestamp` field (`new Date().toISOString()`) carries no information
beyond the call instant and is omitted. -/
structure AuthError where
  code : String
  message : String
deriving DecidableEq, Repr

/-- AuthStep (auth-service.ts lines 80-87). -/
structure AuthStep where
  step : Nat
  method : String
  duration : Nat
  success : Bool
  permissions : Option (List String) := none
  securityLevel : String
deriving DecidableEq, Repr

/-- AuthResult (auth-service.ts lines 54-69). -/
structure AuthResult where
  success : Bool
  sessionId : Option SessionId := none
  token : Option String := none
  expiresAt : Option Nat := none
  permissions : Option (List String) := none
  user : Option UserInfo := none
  authSteps : List AuthStep := []
  totalDuration : Option Nat := none
  securityLevel : Option String := none
  error : Option AuthError := none
deriving DecidableEq, Repr

/-- Decoded JWT claims as read by `authenticateJWT` (auth-service.ts lines
473-483): `userId`, optional `permissions` and `sessionId`. -/
structure JwtClaims where
  userId : String
  permissions : Option (List String) := none
  sessionId : Option SessionId := none
deriving DecidableEq, Repr

namespace AuthService

/-- AuthService.authenticateAPIKey (auth-service.ts lines 395-466).
`sign` abstracts `jwt.sign` with the configured secret and expiry; the
"simulated" key lookup of lines 409-421 is the in-source boolean
`apiKey.length >= 32 && apiKey.startsWith('agentui_')`. -/
def authenticateAPIKey (sign : JwtClaims → String) (st : StoreState)
    (apiKey : String) (requestedPermissions : List String) (now : Nat) :
    AuthResult × StoreState :=
  if !apiKey.startsWith "agentui_" || apiKey.length < 32 then
    ({ success := false
       error := some { code := "INVALID_API_KEY_FORMAT"
                       message := "API key must start with \"agentui_\" and be at least 32 characters" } },
      st)
  else
    let isValidKey := decide (32 ≤ apiKey.length) && apiKey.startsWith "agentui_"
    if !isValidKey then
      ({ success := false
         error := some { code := "INVALID_API_KEY"
                         message := "Invalid API key provided" } },
        st)
    else
      let user : UserInfo :=
        { id := "user_" ++ apiKey.takeRight 8
          name := some "API Key User"
          permissions := if requestedPermissions.length > 0 then requestedPermissions
                         else ["basic", "read"]
          roles := ["api_user"] }
      let res := SessionManager.createSession st user user.permissions now
      let token := sign { userId := user.id
                          permissions := some user.permissions
                          sessionId := some res.1.id }
      ({ success := true
         sessionId := some res.1.id
         token := some token
         expiresAt := some res.1.expiresAt
         permissions := some user.permissions
         user := some user },
        res.2)

/-- AuthService.authenticateJWT (auth-service.ts lines 471-527). `verify`
abstracts `jwt.verify` with the configured secret; a `none` result models a
thrown verification error. `decoded.permissions || ['basic']` defaults only
a missing claim (an empty array is truthy in JavaScript). -/
def authenticateJWT (verify : String → Option JwtClaims) (st : StoreState)
    (token : String) (now : Nat) : AuthResult × StoreState :=
  match verify token with
  | none =>
    ({ success := false
       error := some { code := "INVALID_JWT_TOKEN"
                       message := "Invalid or expired JWT token" } },
      st)
  | some decoded =>
    let user : UserInfo :=
      { id := decoded.userId
        name := some "JWT User"
        permissions := decoded.permissions.getD ["basic"]
        roles := ["jwt_user"] }
    match decoded.sessionId with
    | some sid =>
      match SessionManager.validateSession st sid now with
      | (some session, st1) =>
        ({ success := true
           sessionId := some session.id
           token := some token
           expiresAt := some session.expiresAt
           permissions := some user.permissions
           user := some user },
          st1)
      | (none, st1) =>
        let res := SessionManager.createSession st1 user user.permissions now
        ({ success := true
           sessionId := some res.1.id
           token := some token
           expiresAt := some res.1.expiresAt
           permissions := some user.permissions
           user := some user },
          res.2)
    | none =>
      let res := SessionManager.createSession st user user.permissions now
      ({ success := true
         sessionId := some res.1.id
         token := some token
         expiresAt := some res.1.expiresAt
         permissions := some user.permissions
         user := some user },
        res.2)

/-- The config argument of `authenticateOAuth2` (auth-service.ts lines
532-537). -/
structure OAuth2Args where
  clientId : String
  clientSecret : String
  redirectUri : String
  provider : String
deriving DecidableEq, Repr

/-- AuthService.authenticateOAuth2 (auth-service.ts lines 532-595). The
"simulated" provider validation of line 540 is the in-source boolean
`clientId.length > 0 && clientSecret.length > 0`. -/
def authenticateOAuth2 (sign : JwtClaims → String) (st : StoreState)
    (config : OAuth2Args) (now : Nat) : AuthResult × StoreState :=
  let isValidOAuth2 := !config.clientId.isEmpty && !config.clientSecret.isEmpty
  if !isValidOAuth2 then
    ({ success := false
       error := some { code := "INVALID_OAUTH2_CREDENTIALS"
                       message := "Invalid OAuth2 client credentials" } },
      st)
  else
    let user : UserInfo :=
      { id := "oauth2_" ++ config.clientId.takeRight 8
        name := some (config.provider ++ " User")
        email := some ("user@" ++ config.provider ++ ".com")
        permissions := ["basic", "read", "write", "admin"]
        roles := ["oauth2_user", "premium_user"] }
    let res := SessionManager.createSession st user user.permissions now
    let token := sign { userId := user.id
                        permissions := some user.permissions
                        sessionId := some res.1.id }
    ({ success := true
       sessionId := some res.1.id
       token := some token
       expiresAt := some res.1.expiresAt
       permissions := some user.permissions
       user := some user },
      res.2)

/-- The `AUTH_METHOD_REQUIRED` result of auth-service.ts lines 367-376. -/
def authMethodRequired (steps : List AuthStep) : AuthResult :=
  { success := false
    authSteps := steps
    totalDuration := some 0
    error := some { code := "AUTH_METHOD_REQUIRED"
                    message := "Valid authentication method required" } }

/-- AuthService.authenticate (auth-service.ts lines 281-390). The three
sequential tier guards are mutually exclusive on `request.method`, so a
failed matching tier falls through the remaining guards to the
`AUTH_METHOD_REQUIRED` return, carrying the recorded step; all `Date.now()`
differences inside one call are 0 under the single-instant model. The
`catch` of lines 378-389 is unreachable in the model (no modelled throw). -/
def authenticate (verify : String → Option JwtClaims) (sign : JwtClaims → String)
    (st : StoreState) (request : AuthRequest) (now : Nat) :
    AuthResult × StoreState :=
  if request.method = .apiKey && truthyStr request.apiKey then
    let res := authenticateAPIKey sign st (request.apiKey.getD "")
      (request.permissions.getD []) now
    let step : AuthStep :=
      { step := 1, method := "api-key", duration := 0
        success := res.1.success, permissions := res.1.permissions
        securityLevel := "basic" }
    if res.1.success then
      ({ res.1 with authSteps := [step], totalDuration := some 0
                    securityLevel := some "standard" }, res.2)
    else
      (authMethodRequired [step], res.2)
  else if request.method = .jwt && truthyStr request.token then
    let res := authenticateJWT verify st (request.token.getD "") now
    let step : AuthStep :=
      { step := 2, method := "jwt", duration := 0
        success := res.1.success, permissions := res.1.permissions
        securityLevel := "standard" }
    if res.1.success then
      ({ res.1 with authSteps := [step], totalDuration := some 0
                    securityLevel := some "high" }, res.2)
    else
      (authMethodRequired [step], res.2)
  else if request.method = .oauth2 && truthyStr request.clientId &&
      truthyStr request.clientSecret then
    let res := authenticateOAuth2 sign st
      { clientId := request.clientId.getD ""
        clientSecret := request.clientSecret.getD ""
        redirectUri := request.redirectUri.getD ""
        provider := if truthyStr request.provider then request.provider.getD ""
                    else "generic" } now
    let step : AuthStep :=
      { step := 3, method := "oauth2", duration := 0
        success := res.1.success, permissions := res.1.permissions
        securityLevel := "enterprise" }
    ({ res.1 with authSteps := [step], totalDuration := some 0
                  securityLevel := some "enterprise" }, res.2)
  else
    (authMethodRequired [], st)

end AuthService

theorem truthyStr_some {s : String} (h : s ≠ "") : truthyStr (some s) = true := by
  have : s.isEmpty = false := by
    rw [← Bool.not_eq_true]
    intro hb
    exact h ((String.isEmpty_iff s).1 hb)
  simp [truthyStr, this]

theorem authenticateAPIKey_bad_format (sign : JwtClaims → String) (st : StoreState)
    (k : String) (perms : List String) (now : Nat)
    (hbad : ¬ k.startsWith "agentui_" ∨ k.length < 32) :
    AuthService.authenticateAPIKey sign st k perms now =
      ({ success := false
         error := some { code := "INVALID_API_KEY_FORMAT"
                         message := "API key must start with \"agentui_\" and be at least 32 characters" } },
        st) := by
  have hc : (!k.startsWith "agentui_" || decide (k.length < 32)) = true := by
    rcases hbad with h | h
    · simp [h]
    · simp [h]
  simp [AuthService.authenticateAPIKey, hc]

/-! Claims C4-C6: authenticate failure behavior. -/

/-- Counterexample to claim C4 as stated: `authenticate` with the malformed
key `"short"` does return a failure, but the outer call discards the API-key
tier's error object and falls through to the final return, so the caller
sees `error.code = "AUTH_METHOD_REQUIRED"`, not the invalid-format code the
claim asserts. -/
theorem c4_counterexample :
    ((AuthService.authenticate (fun _ => none) (fun _ => "tok") (initStore 1000)
        { method := .apiKey, apiKey := some "short" } 0).1.error.map AuthError.code =
      some "AUTH_METHOD_REQUIRED") ∧
    some "AUTH_METHOD_REQUIRED" ≠ some "INVALID_API_KEY_FORMAT" := by decide

/-- Claim C4 (amended): for every `authenticate` call whose method is
`api-key` with a nonempty key lacking the `agentui_` prefix or shorter than
32 characters, the result fails with no session created (store unchanged)
and one failed `AuthStep` recorded; the inner API-key tier produces the
`INVALID_API_KEY_FORMAT` error without touching the store, but
`authenticate` itself discards that error and reports
`AUTH_METHOD_REQUIRED`. (An empty key is falsy and never even reaches the
tier.) -/
theorem c4_api_key_format_failure (verify : String → Option JwtClaims)
    (sign : JwtClaims → String) (st : StoreState) (request : AuthRequest)
    (now : Nat) (k : String)
    (hm : request.method = .apiKey) (hk : request.apiKey = some k)
    (hne : k ≠ "") (hbad : ¬ k.startsWith "agentui_" ∨ k.length < 32) :
    (AuthService.authenticate verify sign st request now).1.success = false ∧
    (AuthService.authenticate verify sign st request now).2 = st ∧
    (AuthService.authenticate verify sign st request now).1.error.map AuthError.code =
      some "AUTH_METHOD_REQUIRED" ∧
    (AuthService.authenticate verify sign st request now).1.authSteps.map AuthStep.success =
      [false] ∧
    (AuthService.authenticateAPIKey sign st k (request.permissions.getD []) now).1.error.map
      AuthError.code = some "INVALID_API_KEY_FORMAT" ∧
    (AuthService.authenticateAPIKey sign st k (request.permissions.getD []) now).2 = st := by
  have htr : truthyStr request.apiKey = true := by
    rw [hk]
    exact truthyStr_some hne
  have htier := authenticateAPIKey_bad_format sign st k (request.permissions.getD []) now hbad
  have hgetd : request.apiKey.getD "" = k := by rw [hk]; rfl
  simp only [AuthService.authenticate, hm, htr, hgetd, htier]
  simp [AuthService.authMethodRequired]

/-- Witness for C4's amended theorem at the spec's own scenario input
`apiKey = "short"`. -/
theorem c4_api_key_format_failure_witness :
    (AuthService.authenticate (fun _ => none) (fun _ => "tok") (initStore 1000)
        { method := .apiKey, apiKey := some "short" } 0).1.success = false ∧
    (AuthService.authenticate (fun _ => none) (fun _ => "tok") (initStore 1000)
        { method := .apiKey, apiKey := some "short" } 0).2 = initStore 1000 ∧
    (AuthService.authenticate (fun _ => none) (fun _ => "tok") (initStore 1000)
        { method := .apiKey, apiKey := some "short" } 0).1.error.map AuthError.code =
      some "AUTH_METHOD_REQUIRED" ∧
    (AuthService.authenticate (fun _ => none) (fun _ => "tok") (initStore 1000)
        { method := .apiKey, apiKey := some "short" } 0).1.authSteps.map AuthStep.success =
      [false] ∧
    (AuthService.authenticateAPIKey (fun _ => "tok") (initStore 1000) "short"
        (Option.getD (α := List String) none []) 0).1.error.map
      AuthError.code = some "INVALID_API_KEY_FORMAT" ∧
    (AuthService.authenticateAPIKey (fun _ => "tok") (initStore 1000) "short"
        (Option.getD (α := List String) none []) 0).2 = initStore 1000 :=
  c4_api_key_format_failure (fun _ => none) (fun _ => "tok") (initStore 1000)
    { method := .apiKey, apiKey := some "short" } 0 "short" rfl rfl
    (by decide) (Or.inr (by decide))

/-- Requests whose structural validation fails in `authenticate`: a falsy or
malformed API key under the api-key method, a falsy token under the jwt
method, or a falsy client id or client secret under the oauth2 method. -/
def structuralFailure (request : AuthRequest) : Bool :=
  match request.method with
  | .apiKey => !truthyStr request.apiKey ||
      (!(request.apiKey.getD "").startsWith "agentui_" ||
        (request.apiKey.getD "").length < 32)
  | .jwt => !truthyStr request.token
  | .oauth2 => !truthyStr request.clientId || !truthyStr request.clientSecret

/-- Claim C5: every `authenticate` request that fails structural validation
returns a failure carrying no session id and no token, and leaves the
session store exactly as it was. -/
theorem c5_structural_failure_atomicity (verify : String → Option JwtClaims)
    (sign : JwtClaims → String) (st : StoreState) (request : AuthRequest)
    (now : Nat) (h : structuralFailure request = true) :
    (AuthService.authenticate verify sign st request now).1.success = false ∧
    (AuthService.authenticate verify sign st request now).1.sessionId = none ∧
    (AuthService.authenticate verify sign st request now).1.token = none ∧
    (AuthService.authenticate verify sign st request now).2 = st := by
  rcases hm : request.method with _ | _ | _
  · -- api-key
    rw [structuralFailure, hm] at h
    simp only [Bool.or_eq_true] at h
    rcases h with h | h
    · have htr : truthyStr request.apiKey = false := by
        simpa using h
      simp [AuthService.authenticate, hm, htr, AuthService.authMethodRequired]
    · by_cases htr : truthyStr request.apiKey = true
      · have hbad : ¬ (request.apiKey.getD "").startsWith "agentui_" ∨
            (request.apiKey.getD "").length < 32 := by
          rcases h with h1 | h1
          · exact Or.inl (by simpa using h1)
          · exact Or.inr (by simpa using h1)
        have htier := authenticateAPIKey_bad_format sign st (request.apiKey.getD "")
          (request.permissions.getD []) now hbad
        simp only [AuthService.authenticate, hm, htr, htier]
        simp [AuthService.authMethodRequired]
      · have htr' : truthyStr request.apiKey = false := by
          simpa using htr
        simp [AuthService.authenticate, hm, htr', AuthService.authMethodRequired]
  · -- jwt
    rw [structuralFailure, hm] at h
    have htr : truthyStr request.token = false := by simpa using h
    simp [AuthService.authenticate, hm, htr, AuthService.authMethodRequired]
  · -- oauth2
    rw [structuralFailure, hm] at h
    simp only [Bool.or_eq_true] at h
    rcases h with h | h
    · have htr : truthyStr request.clientId = false := by simpa using h
      simp [AuthService.authenticate, hm, htr, AuthService.authMethodRequired]
    · have htr : truthyStr request.clientSecret = false := by simpa using h
      by_cases htr1 : truthyStr request.clientId = true <;>
        simp [AuthService.authenticate, hm, htr, htr1, AuthService.authMethodRequired]

/-- Witness for C5: the jwt method with a missing token fails and leaves a
one-session store untouched. -/
theorem c5_structural_failure_atomicity_witness :
    structuralFailure { method := .jwt } = true ∧
    ((AuthService.authenticate (fun _ => none) (fun _ => "tok")
        (SessionManager.createSession (initStore 1000) { id := "alice" } ["basic"] 5).2
        { method := .jwt } 9).1.success = false ∧
     (AuthService.authenticate (fun _ => none) (fun _ => "tok")
        (SessionManager.createSession (initStore 1000) { id := "alice" } ["basic"] 5).2
        { method := .jwt } 9).1.sessionId = none ∧
     (AuthService.authenticate (fun _ => none) (fun _ => "tok")
        (SessionManager.createSession (initStore 1000) { id := "alice" } ["basic"] 5).2
        { method := .jwt } 9).1.token = none ∧
     (AuthService.authenticate (fun _ => none) (fun _ => "tok")
        (SessionManager.createSession (initStore 1000) { id := "alice" } ["basic"] 5).2
        { method := .jwt } 9).2 =
       (SessionManager.createSession (initStore 1000) { id := "alice" } ["basic"] 5).2) :=
  ⟨by decide,
   c5_structural_failure_atomicity (fun _ => none) (fun _ => "tok")
     (SessionManager.createSession (initStore 1000) { id := "alice" } ["basic"] 5).2
     { method := .jwt } 9 (by decide)⟩

theorem getD_isEmpty_false {o : Option String} (h : truthyStr o = true) :
    (o.getD "").isEmpty = false := by
  cases o with
  | none => simp [truthyStr] at h
  | some s => simpa [truthyStr] using h

theorem length_mapSet_of_not_mem {K V : Type} [DecidableEq K]
    (m : List (K × V)) (k : K) (v : V) (h : k ∉ mapKeys m) :
    (mapSet m k v).length = m.length + 1 := by
  have h1 : (mapKeys (mapSet m k v)).length = (mapKeys m ++ [k]).length := by
    rw [mapKeys_mapSet_of_not_mem m k v h]
  simpa [mapKeys, List.length_append] using h1

/-- Counterexample to claim C6 as stated: an oauth2 request with nonempty
client credentials but absent redirect URI and provider does not fail with
any `MissingOAuth2Config` code — it succeeds and creates a session (the
defaults `''`/`'generic'` are substituted). -/
theorem c6_counterexample :
    ((AuthService.authenticate (fun _ => none) (fun _ => "tok") (initStore 1000)
        { method := .oauth2, clientId := some "client01",
          clientSecret := some "secret01" } 0).1.success = true) ∧
    ((AuthService.authenticate (fun _ => none) (fun _ => "tok") (initStore 1000)
        { method := .oauth2, clientId := some "client01",
          clientSecret := some "secret01" } 0).2.sessions.length = 1) := by decide

/-- Claim C6 (amended): under the oauth2 method the service checks only
client id and client secret. If either is empty or absent, the call falls
through to the `AUTH_METHOD_REQUIRED` failure (no `MissingOAuth2Config` code
exists in the service), producing no session and no token; when both are
nonempty the call succeeds and creates a session even if redirect URI or
provider are empty or absent (they default to `""` and `"generic"`). -/
theorem c6_oauth2_precondition (verify : String → Option JwtClaims)
    (sign : JwtClaims → String) (st : StoreState) (request : AuthRequest)
    (now : Nat) (hinv : storeInv st) (hm : request.method = .oauth2) :
    ((truthyStr request.clientId = false ∨ truthyStr request.clientSecret = false) →
      (AuthService.authenticate verify sign st request now).1.success = false ∧
      (AuthService.authenticate verify sign st request now).1.error.map AuthError.code =
        some "AUTH_METHOD_REQUIRED" ∧
      (AuthService.authenticate verify sign st request now).1.sessionId = none ∧
      (AuthService.authenticate verify sign st request now).1.token = none ∧
      (AuthService.authenticate verify sign st request now).2 = st) ∧
    (truthyStr request.clientId = true → truthyStr request.clientSecret = true →
      (AuthService.authenticate verify sign st request now).1.success = true ∧
      (AuthService.authenticate verify sign st request now).2.sessions.length =
        st.sessions.length + 1) := by
  constructor
  · intro hfalse
    rcases hfalse with hc | hc <;>
      simp [AuthService.authenticate, hm, hc, AuthService.authMethodRequired]
  · intro hc hs
    have hc1 := getD_isEmpty_false hc
    have hs1 := getD_isEmpty_false hs
    simp only [AuthService.authenticate, hm, hc, hs, AuthService.authenticateOAuth2,
      hc1, hs1, SessionManager.createSession]
    refine ⟨by simp, ?_⟩
    simp only [Bool.not_false, Bool.and_self, Bool.not_eq_eq_eq_not, Bool.not_true,
      decide_eq_false_iff_not]
    simp
    exact length_mapSet_of_not_mem _ _ _ (fresh_id_not_mem hinv now)

/-- Witness for C6's amended theorem: a request missing its client id fails
with `AUTH_METHOD_REQUIRED` and leaves the store empty; a request with both
credentials but no redirect URI or provider succeeds and adds a session. -/
theorem c6_oauth2_precondition_witness :
    ((AuthService.authenticate (fun _ => none) (fun _ => "tok") (initStore 1000)
        { method := .oauth2, clientSecret := some "secret01" } 0).1.success = false ∧
     (AuthService.authenticate (fun _ => none) (fun _ => "tok") (initStore 1000)
        { method := .oauth2, clientSecret := some "secret01" } 0).1.error.map
        AuthError.code = some "AUTH_METHOD_REQUIRED" ∧
     (AuthService.authenticate (fun _ => none) (fun _ => "tok") (initStore 1000)
        { method := .oauth2, clientSecret := some "secret01" } 0).1.sessionId = none ∧
     (AuthService.authenticate (fun _ => none) (fun _ => "tok") (initStore 1000)
        { method := .oauth2, clientSecret := some "secret01" } 0).1.token = none ∧
     (AuthService.authenticate (fun _ => none) (fun _ => "tok") (initStore 1000)
        { method := .oauth2, clientSecret := some "secret01" } 0).2 = initStore 1000) ∧
    ((AuthService.authenticate (fun _ => none) (fun _ => "tok") (initStore 1000)
        { method := .oauth2, clientId := some "client01",
          clientSecret := some "secret01" } 0).1.success = true ∧
     (AuthService.authenticate (fun _ => none) (fun _ => "tok") (initStore 1000)
        { method := .oauth2, clientId := some "client01",
          clientSecret := some "secret01" } 0).2.sessions.length =
       (initStore 1000).sessions.length + 1) :=
  ⟨(c6_oauth2_precondition (fun _ => none) (fun _ => "tok") (initStore 1000)
      { method := .oauth2, clientSecret := some "secret01" } 0
      (by decide) rfl).1 (Or.inl (by decide)),
   (c6_oauth2_precondition (fun _ => none) (fun _ => "tok") (initStore 1000)
      { method := .oauth2, clientId := some "client01",
        clientSecret := some "secret01" } 0
      (by decide) rfl).2 (by decide) (by decide)⟩

theorem validate_some_id (st : StoreState) (sid : SessionId) (now : Nat)
    {s : Session} (hinv : storeInv st)
    (h : (SessionManager.validateSession st sid now).1 = some s) : s.id = sid := by
  rcases hget : mapGet st.sessions sid with _ | sess
  · rw [SessionManager.validateSession, hget] at h
    simp at h
  · by_cases hexp : sess.expiresAt < now
    · simp [SessionManager.validateSession, hget, hexp] at h
    · simp only [SessionManager.validateSession, hget, if_neg hexp] at h
      rw [← Option.some.inj h]
      exact (hinv.2 _ (mapGet_mem _ _ hget)).1

theorem validate_some_keys (st : StoreState) (sid : SessionId) (now : Nat)
    {s : Session}
    (h : (SessionManager.validateSession st sid now).1 = some s) :
    mapKeys (SessionManager.validateSession st sid now).2.sessions =
      mapKeys st.sessions := by
  rcases hget : mapGet st.sessions sid with _ | sess
  · rw [SessionManager.validateSession, hget] at h
    simp at h
  · by_cases hexp : sess.expiresAt < now
    · simp [SessionManager.validateSession, hget, hexp] at h
    · simp only [SessionManager.validateSession, hget, if_neg hexp]
      exact mapKeys_mapSet_of_mem _ _ _ (mem_mapKeys_of_mapGet hget)

/-- Claim C7: when a verified token's claims carry a `sessionId` that still
validates, `authenticateJWT` returns that session's id with the store only
touched by the validation itself (same key set: no new session, no
rotation); when the claims carry no `sessionId`, or one that no longer
validates, a fresh session is created for the decoded user. -/
theorem c7_jwt_session_reuse (verify : String → Option JwtClaims)
    (st : StoreState) (token : String) (now : Nat) (claims : JwtClaims)
    (hinv : storeInv st) (hv : verify token = some claims) :
    (∀ sid s, claims.sessionId = some sid →
      (SessionManager.validateSession st sid now).1 = some s →
      (AuthService.authenticateJWT verify st token now).1.success = true ∧
      (AuthService.authenticateJWT verify st token now).1.sessionId = some sid ∧
      (AuthService.authenticateJWT verify st token now).2 =
        (SessionManager.validateSession st sid now).2 ∧
      mapKeys (AuthService.authenticateJWT verify st token now).2.sessions =
        mapKeys st.sessions) ∧
    ((claims.sessionId = none ∨ ∃ sid, claims.sessionId = some sid ∧
        (SessionManager.validateSession st sid now).1 = none) →
      (AuthService.authenticateJWT verify st token now).1.success = true ∧
      (AuthService.authenticateJWT verify st token now).1.sessionId =
        some { ts := now, uuid := st.nextUuid } ∧
      ({ ts := now, uuid := st.nextUuid } : SessionId) ∉ mapKeys st.sessions ∧
      (∃ s', mapGet (AuthService.authenticateJWT verify st token now).2.sessions
          { ts := now, uuid := st.nextUuid } = some s' ∧
        s'.userId = claims.userId ∧ s'.createdAt = now)) := by
  constructor
  · intro sid s hsid hval
    have hid := validate_some_id st sid now hinv hval
    have hkeys := validate_some_keys st sid now hval
    rcases hpair : SessionManager.validateSession st sid now with ⟨r, st1⟩
    rw [hpair] at hval
    simp only at hval
    subst hval
    simp only [AuthService.authenticateJWT, hv, hsid, hpair]
    rw [hpair] at hkeys
    exact ⟨trivial, by rw [hid], trivial, hkeys⟩
  · intro hcase
    rcases hcase with hnone | ⟨sid, hsid, hvalnone⟩
    · simp only [AuthService.authenticateJWT, hv, hnone, SessionManager.createSession]
      exact ⟨trivial, trivial, fresh_id_not_mem hinv now,
        ⟨_, mapGet_mapSet_self _ _ _, rfl, rfl⟩⟩
    · rcases hpair : SessionManager.validateSession st sid now with ⟨r, st1⟩
      rw [hpair] at hvalnone
      simp only at hvalnone
      subst hvalnone
      have hnext : st1.nextUuid = st.nextUuid := by
        have := validate_nextUuid st sid now
        rwa [hpair] at this
      simp only [AuthService.authenticateJWT, hv, hsid, hpair,
        SessionManager.createSession, hnext]
      exact ⟨trivial, trivial, fresh_id_not_mem hinv now,
        ⟨_, mapGet_mapSet_self _ _ _, rfl, rfl⟩⟩

/-- Witness for C7 at concrete instances: a store holding session
`(ts 5, uuid 0)`; the token `"tokA"` decodes to claims carrying that
session id (reused), the token `"tokB"` decodes to claims without a session
id (fresh session minted). -/
theorem c7_jwt_session_reuse_witness :
    ((AuthService.authenticateJWT
        (fun t => if t = "tokA" then
            some { userId := "alice", sessionId := some { ts := 5, uuid := 0 } }
          else if t = "tokB" then some { userId := "bob" } else none)
        (SessionManager.createSession (initStore 1000) { id := "alice" } ["basic"] 5).2
        "tokA" 9).1.sessionId = some { ts := 5, uuid := 0 } ∧
     mapKeys (AuthService.authenticateJWT
        (fun t => if t = "tokA" then
            some { userId := "alice", sessionId := some { ts := 5, uuid := 0 } }
          else if t = "tokB" then some { userId := "bob" } else none)
        (SessionManager.createSession (initStore 1000) { id := "alice" } ["basic"] 5).2
        "tokA" 9).2.sessions =
       mapKeys (SessionManager.createSession (initStore 1000)
         { id := "alice" } ["basic"] 5).2.sessions) ∧
    ((AuthService.authenticateJWT
        (fun t => if t = "tokA" then
            some { userId := "alice", sessionId := some { ts := 5, uuid := 0 } }
          else if t = "tokB" then some { userId := "bob" } else none)
        (SessionManager.createSession (initStore 1000) { id := "alice" } ["basic"] 5).2
        "tokB" 9).1.sessionId = some { ts := 9, uuid := 1 }) :=
  ⟨⟨((c7_jwt_session_reuse _
      (SessionManager.createSession (initStore 1000) { id := "alice" } ["basic"] 5).2
      "tokA" 9 { userId := "alice", sessionId := some { ts := 5, uuid := 0 } }
      (by decide) (by decide)).1 { ts := 5, uuid := 0 }
      { id := { ts := 5, uuid := 0 }, userId := "alice", user := { id := "alice" },
        createdAt := 5, expiresAt := 1005, lastAccessedAt := 9,
        permissions := ["basic"], metadata := [] } rfl (by decide)).2.1,
    ((c7_jwt_session_reuse _
      (SessionManager.createSession (initStore 1000) { id := "alice" } ["basic"] 5).2
      "tokA" 9 { userId := "alice", sessionId := some { ts := 5, uuid := 0 } }
      (by decide) (by decide)).1 { ts := 5, uuid := 0 }
      { id := { ts := 5, uuid := 0 }, userId := "alice", user := { id := "alice" },
        createdAt := 5, expiresAt := 1005, lastAccessedAt := 9,
        permissions := ["basic"], metadata := [] } rfl (by decide)).2.2.2⟩,
   ((c7_jwt_session_reuse _
      (SessionManager.createSession (initStore 1000) { id := "alice" } ["basic"] 5).2
      "tokB" 9 { userId := "bob" }
      (by decide) (by decide)).2 (Or.inl rfl)).2.1⟩

/-!
Password hashing (`src/utils/password-hashing.ts` and the `PasswordUtils`
class of auth-service.ts lines 192-260). The argon2 library itself is a
third-party dependency whose code is not in this repository; its hash-string
format and verify behavior are modelled below (PHC string with embedded
parameters plus an abstract key-derivation function `kdf`), per the spec's
description of self-describing hashes.
-/

/-- Argon2Config (auth-service.ts lines 28-33). TypeScript numbers can be
non-positive, so the fields are integers. -/
structure Argon2Config where
  memoryCost : Int
  timeCost : Int
  parallelism : Int
  hashLength : Int
deriving DecidableEq, Repr

/-- The parsed content of a PHC-format argon2id hash string
`$argon2id$v=19$m=..,t=..,p=..$salt$key`. -/
structure PhcHash where
  memoryCost : Nat
  timeCost : Nat
  parallelism : Nat
  salt : String
  key : String
deriving DecidableEq, Repr

/-- Modelled from the spec: the argon2 library's PHC hash-string encoder
(section 4.1: a hash is "a self-describing string encoding algorithm
identifier, cost parameters, a fresh random salt, and the derived key").
The library is external to this repository. -/
def phcEncode (cfg : Argon2Config) (salt key : String) : String :=
  "$argon2id$v=19$m=" ++ toString cfg.memoryCost ++ ",t=" ++ toString cfg.timeCost ++
    ",p=" ++ toString cfg.parallelism ++ "$" ++ salt ++ "$" ++ key

/-- Split a character list at every occurrence of `sep`, like
`String.splitOn` with a one-character separator (written structurally so
that it evaluates by kernel reduction). -/
def splitOnChar (sep : Char) : List Char → List (List Char)
  | [] => [[]]
  | c :: rest =>
    if c = sep then [] :: splitOnChar sep rest
    else
      match splitOnChar sep rest with
      | [] => [[c]]
      | g :: gs => (c :: g) :: gs

/-- Parse a nonempty run of decimal digits. -/
def digitsToNatAux (acc : Nat) : List Char → Option Nat
  | [] => some acc
  | c :: rest =>
    if c.isDigit then digitsToNatAux (acc * 10 + (c.toNat - 48)) rest else none

/-- Parse a nonempty all-digit character list as a natural number. -/
def parseNatDigits : List Char → Option Nat
  | [] => none
  | l => digitsToNatAux 0 l

/-- Modelled from the spec: the argon2 library's PHC hash-string parser.
Strings not of the expected shape are malformed; the library throws on them
and the repository's verify wrappers catch that throw. -/
def phcParse (hash : String) : Option PhcHash :=
  match splitOnChar '$' hash.data with
  | [[], ident, ver, params, salt, key] =>
    if ident = "argon2id".data && ver = "v=19".data then
      match splitOnChar ',' params with
      | [mPart, tPart, pPart] =>
        match mPart, tPart, pPart with
        | 'm' :: '=' :: mds, 't' :: '=' :: tds, 'p' :: '=' :: pds =>
          match parseNatDigits mds, parseNatDigits tds, parseNatDigits pds with
          | some m, some t, some p =>
            if salt.isEmpty || key.isEmpty then none
            else some { memoryCost := m, timeCost := t, parallelism := p,
                        salt := String.mk salt, key := String.mk key }
          | _, _, _ => none
        | _, _, _ => none
      | _ => none
    else none
  | _ => none

/-- Modelled from the spec: `argon2.verify(hash, password)` parses the
embedded parameters and salt and compares the re-derived key with the
embedded key; it throws (`Except.error`) on malformed strings. The
key-derivation function `kdf` (memory cost, time cost, parallelism, salt,
password) is abstract. -/
def argon2Verify (kdf : Nat → Nat → Nat → String → String → String)
    (hash password : String) : Except String Bool :=
  match phcParse hash with
  | none => Except.error "invalid hash"
  | some parsed =>
    Except.ok
      (kdf parsed.memoryCost parsed.timeCost parsed.parallelism parsed.salt password
        == parsed.key)

/-- PasswordUtils.verifyPassword (auth-service.ts lines 217-224): returns
the library's boolean, catching any thrown error as `false` — total by
construction. -/
def PasswordUtils.verifyPassword (kdf : Nat → Nat → Nat → String → String → String)
    (password hash : String) : Bool :=
  match argon2Verify kdf hash password with
  | .ok b => b
  | .error _ => false

/-- verifyPassword of src/utils/password-hashing.ts (lines 53-74): like the
`PasswordUtils` copy but first returns `false` when either argument is falsy
(the empty string). -/
def Utils.verifyPassword (kdf : Nat → Nat → Nat → String → String → String)
    (password hashedPassword : String) : Bool :=
  if password.isEmpty || hashedPassword.isEmpty then false
  else
    match argon2Verify kdf hashedPassword password with
    | .ok b => b
    | .error _ => false

/-- Claim C8: `verifyPassword` is a total boolean function (library throws
are caught): on malformed hash strings both repository copies return
`false`, and `PasswordUtils.verifyPassword` returns `true` exactly when the
password re-derives the embedded key under the parameters and salt embedded
in the hash string. -/
theorem c8_verify_totality (kdf : Nat → Nat → Nat → String → String → String)
    (password hash : String) :
    (phcParse hash = none →
      PasswordUtils.verifyPassword kdf password hash = false ∧
      Utils.verifyPassword kdf password hash = false) ∧
    (PasswordUtils.verifyPassword kdf password hash = true ↔
      ∃ parsed, phcParse hash = some parsed ∧
        kdf parsed.memoryCost parsed.timeCost parsed.parallelism parsed.salt password =
          parsed.key) := by
  constructor
  · intro hmal
    constructor
    · simp [PasswordUtils.verifyPassword, argon2Verify, hmal]
    · rcases hpw : password.isEmpty with _ | _ <;>
        simp [Utils.verifyPassword, argon2Verify, hmal, hpw]
  · rcases hparse : phcParse hash with _ | parsed
    · simp [PasswordUtils.verifyPassword, argon2Verify, hparse]
    · simp [PasswordUtils.verifyPassword, argon2Verify, hparse]

/-- Witness for C8: a malformed hash string is rejected, and a well-formed
hash embedding the model KDF's output for `"pw1"` verifies. -/
theorem c8_verify_totality_witness :
    PasswordUtils.verifyPassword (fun _ _ _ salt pw => salt ++ "|" ++ pw)
      "pw1" "not-a-hash" = false ∧
    PasswordUtils.verifyPassword (fun _ _ _ salt pw => salt ++ "|" ++ pw)
      "pw1" "$argon2id$v=19$m=65536,t=3,p=4$SALT$SALT|pw1" = true :=
  ⟨((c8_verify_totality (fun _ _ _ salt pw => salt ++ "|" ++ pw)
      "pw1" "not-a-hash").1 (by decide)).1,
   (c8_verify_totality (fun _ _ _ salt pw => salt ++ "|" ++ pw)
      "pw1" "$argon2id$v=19$m=65536,t=3,p=4$SALT$SALT|pw1").2.mpr
     ⟨{ memoryCost := 65536, timeCost := 3, parallelism := 4,
        salt := "SALT", key := "SALT|pw1" }, by decide, by decide⟩⟩

/-- Modelled from the spec and the argon2 library's documented option
validation: the library asserts its cost options are within range
(minimums 2048 KiB memory, 2 iterations, 1 thread, 4 bytes of output), so
every non-positive option is rejected with a thrown error; for in-range
options it derives a key from any password, the empty string included, and
returns the PHC-encoded hash. `salt` stands for the fresh random salt drawn
by the call. -/
def argon2Hash (kdf : Nat → Nat → Nat → String → String → String)
    (salt password : String) (cfg : Argon2Config) : Except String String :=
  if cfg.memoryCost < 2048 || cfg.timeCost < 2 || cfg.parallelism < 1 ||
      cfg.hashLength < 4 then
    Except.error "invalid options"
  else
    Except.ok (phcEncode cfg salt
      (kdf cfg.memoryCost.toNat cfg.timeCost.toNat cfg.parallelism.toNat salt password))

/-- The static default config of `PasswordUtils` (auth-service.ts lines
193-198). -/
def PasswordUtils.defaultConfig : Argon2Config :=
  { memoryCost := 65536, timeCost := 3, parallelism := 4, hashLength := 32 }

/-- PasswordUtils.hashPassword (auth-service.ts lines 200-215): applies the
supplied config or the default and forwards to the library with no
precondition checks of its own; a library error is re-thrown as
`Password hashing failed: …`. -/
def PasswordUtils.hashPassword (kdf : Nat → Nat → Nat → String → String → String)
    (salt password : String) (config : Option Argon2Config) : Except String String :=
  let argon2Config := config.getD PasswordUtils.defaultConfig
  match argon2Hash kdf salt password argon2Config with
  | .ok h => .ok h
  | .error e => .error ("Password hashing failed: " ++ e)

/-- The fixed ARGON2_CONFIG of src/utils/password-hashing.ts (lines 13-20);
its `saltLength` field affects only salt drawing and is not modelled. -/
def Utils.ARGON2_CONFIG : Argon2Config :=
  { memoryCost := 65536, timeCost := 3, parallelism := 1, hashLength := 32 }

/-- hashPassword of src/utils/password-hashing.ts (lines 28-44): rejects
empty passwords inside its own try block and calls the library with the
fixed config; any thrown error — its own empty-password error included —
is caught and re-thrown as the generic `Failed to hash password`. -/
def Utils.hashPassword (kdf : Nat → Nat → Nat → String → String → String)
    (salt password : String) : Except String String :=
  let inner : Except String String :=
    if password.isEmpty then Except.error "Password cannot be empty"
    else argon2Hash kdf salt password Utils.ARGON2_CONFIG
  match inner with
  | .ok h => .ok h
  | .error _ => .error "Failed to hash password"

/-- Counterexample to claim C9 as stated: `PasswordUtils.hashPassword` (the
only hash entry point that accepts a config, cited by the claim) performs no
empty-password check — hashing the empty password under the default config
succeeds and returns a hash string instead of failing with `EmptyPassword`. -/
theorem c9_counterexample :
    PasswordUtils.hashPassword (fun _ _ _ _ _ => "KEY") "somesalt" "" none =
      Except.ok "$argon2id$v=19$m=65536,t=3,p=4$somesalt$KEY" := rfl

/-- Claim C9 (amended): the configless `Utils.hashPassword` rejects an empty
password, but surfaces it as the generic `Failed to hash password` error
(its catch block swallows the specific message); `PasswordUtils.hashPassword`
checks nothing itself: an empty password hashes successfully under the
default config, and non-positive config fields fail only through the
underlying library's option validation, surfaced as
`Password hashing failed: …` — no distinct `EmptyPassword` or
`InvalidHashParams` codes exist. -/
theorem c9_hash_preconditions (kdf : Nat → Nat → Nat → String → String → String)
    (salt password : String) (cfg : Argon2Config) :
    Utils.hashPassword kdf salt "" = Except.error "Failed to hash password" ∧
    (cfg.memoryCost ≤ 0 ∨ cfg.timeCost ≤ 0 ∨ cfg.parallelism ≤ 0 ∨ cfg.hashLength ≤ 0 →
      PasswordUtils.hashPassword kdf salt password (some cfg) =
        Except.error ("Password hashing failed: " ++ "invalid options")) ∧
    PasswordUtils.hashPassword kdf salt password none =
      Except.ok (phcEncode PasswordUtils.defaultConfig salt
        (kdf 65536 3 4 salt password)) := by
  refine ⟨rfl, ?_, by simp [PasswordUtils.hashPassword,
    PasswordUtils.defaultConfig, argon2Hash]⟩
  intro hbad
  have hc : (cfg.memoryCost < 2048 || cfg.timeCost < 2 || cfg.parallelism < 1 ||
      cfg.hashLength < 4) = true := by
    rcases hbad with h | h | h | h <;> simp <;> omega
  simp [PasswordUtils.hashPassword, argon2Hash, hc]

/-- Witness for C9's amended theorem, using the non-positive config the
repository's own test suite uses (`memoryCost -1`, `timeCost 0`, …). -/
theorem c9_hash_preconditions_witness :
    Utils.hashPassword (fun _ _ _ _ _ => "KEY") "somesalt" "" =
      Except.error "Failed to hash password" ∧
    PasswordUtils.hashPassword (fun _ _ _ _ _ => "KEY") "somesalt" "test"
        (some { memoryCost := -1, timeCost := 0, parallelism := 0, hashLength := 0 }) =
      Except.error ("Password hashing failed: " ++ "invalid options") ∧
    PasswordUtils.hashPassword (fun _ _ _ _ _ => "KEY") "somesalt" "test" none =
      Except.ok (phcEncode PasswordUtils.defaultConfig "somesalt"
        ((fun _ _ _ _ _ => "KEY") 65536 3 4 "somesalt" "test")) :=
  ⟨(c9_hash_preconditions (fun _ _ _ _ _ => "KEY") "somesalt" "test"
      { memoryCost := -1, timeCost := 0, parallelism := 0, hashLength := 0 }).1,
   (c9_hash_preconditions (fun _ _ _ _ _ => "KEY") "somesalt" "test"
      { memoryCost := -1, timeCost := 0, parallelism := 0, hashLength := 0 }).2.1
     (Or.inl (by decide)),
   (c9_hash_preconditions (fun _ _ _ _ _ => "KEY") "somesalt" "test"
      { memoryCost := -1, timeCost := 0, parallelism := 0, hashLength := 0 }).2.2⟩

/-! Password strength scoring (auth-service.ts lines 226-259). The
JavaScript regex tests are embedded over the string's characters; string
length is modelled as character count. -/

/-- The test of `/[a-z]/` (auth-service.ts line 238). -/
def hasLowercase (password : String) : Bool := password.data.any Char.isLower

/-- The test of `/[A-Z]/` (line 241). -/
def hasUppercase (password : String) : Bool := password.data.any Char.isUpper

/-- The test of `/[0-9]/` (line 244). -/
def hasDigitChar (password : String) : Bool := password.data.any Char.isDigit

/-- The test of `/[^a-zA-Z0-9]/` (line 247). -/
def hasSpecialChar (password : String) : Bool :=
  password.data.any (fun c => !c.isAlphanum)

/-- A character the JavaScript regex dot matches: everything except the
line terminators LF, CR, U+2028 and U+2029. -/
def jsDotChar (c : Char) : Bool :=
  c != '\n' && c != '\r' && c.toNat != 8232 && c.toNat != 8233

/-- The test of the repeated-character regex of line 250 (a captured dot
followed by two or more backreferences): some non-line-terminator character
occurs at three or more consecutive positions. -/
def hasRepeatRun : List Char → Bool
  | a :: b :: c :: rest =>
    (jsDotChar a && a == b && b == c) || hasRepeatRun (b :: c :: rest)
  | _ => false

/-- The result record of `validatePasswordStrength` (lines 226-230). -/
structure StrengthResult where
  score : Nat
  isValid : Bool
  feedback : List String
deriving DecidableEq, Repr

/-- The score accumulated by `validatePasswordStrength` (lines 232-250):
2 points for length ≥ 12, else 1 point for length ≥ 8, and one point for
each satisfied character-class criterion (the last one for the absence of a
3-run). -/
def strengthScore (password : String) : Nat :=
  (if 12 ≤ password.length then 2 else if 8 ≤ password.length then 1 else 0) +
  (if hasLowercase password then 1 else 0) +
  (if hasUppercase password then 1 else 0) +
  (if hasDigitChar password then 1 else 0) +
  (if hasSpecialChar password then 1 else 0) +
  (if hasRepeatRun password.data then 0 else 1)

/-- The feedback messages pushed by `validatePasswordStrength`, in push
order; no message is pushed for the length branch when length ≥ 8, even if
length < 12. -/
def strengthFeedback (password : String) : List String :=
  (if 8 ≤ password.length then []
   else ["Password should be at least 8 characters long"]) ++
  (if hasLowercase password then [] else ["Include lowercase letters"]) ++
  (if hasUppercase password then [] else ["Include uppercase letters"]) ++
  (if hasDigitChar password then [] else ["Include numbers"]) ++
  (if hasSpecialChar password then [] else ["Include special characters"]) ++
  (if hasRepeatRun password.data then ["Avoid repeating characters"] else [])

/-- PasswordUtils.validatePasswordStrength (auth-service.ts lines 226-259). -/
def PasswordUtils.validatePasswordStrength (password : String) : StrengthResult :=
  { score := strengthScore password
    isValid := decide (6 ≤ strengthScore password)
    feedback := if 6 ≤ strengthScore password then ["Password strength is good"]
                else strengthFeedback password }

/-- The number of satisfied criteria among the seven the claim enumerates,
written from the claim's own wording for comparison with the
implementation. -/
def specCriteriaMet (password : String) : Nat :=
  (if 8 ≤ password.length then 1 else 0) +
  (if 12 ≤ password.length then 1 else 0) +
  (if hasLowercase password then 1 else 0) +
  (if hasUppercase password then 1 else 0) +
  (if hasDigitChar password then 1 else 0) +
  (if hasSpecialChar password then 1 else 0) +
  (if hasRepeatRun password.data then 0 else 1)

theorem mem_ite_nil_pos {α : Type} {c : Prop} [Decidable c] (a : α) (l : List α) :
    (a ∈ if c then ([] : List α) else l) ↔ (¬ c ∧ a ∈ l) := by
  split_ifs with hc <;> simp [hc]

theorem mem_ite_nil_neg {α : Type} {c : Prop} [Decidable c] (a : α) (l : List α) :
    (a ∈ if c then l else ([] : List α)) ↔ (c ∧ a ∈ l) := by
  split_ifs with hc <;> simp [hc]

/-- Counterexample to claim C10 as stated: for `"aaaaaaaa"` five of the
seven criteria are unmet (length ≥ 12, uppercase, digit, symbol, no-run —
`specCriteriaMet` is 2 of 7) but the feedback names only four of them: the
unmet length ≥ 12 criterion produces no feedback entry, so the feedback
does not list exactly the unmet criteria. -/
theorem c10_counterexample :
    (PasswordUtils.validatePasswordStrength "aaaaaaaa").isValid = false ∧
    (PasswordUtils.validatePasswordStrength "aaaaaaaa").feedback =
      ["Include uppercase letters", "Include numbers",
        "Include special characters", "Avoid repeating characters"] ∧
    specCriteriaMet "aaaaaaaa" = 2 ∧
    decide (12 ≤ "aaaaaaaa".length) = false := by decide

/-- Claim C10 (amended): the score equals the number of satisfied criteria
among the claim's seven (the 2-else-1 length scoring coincides with one
point each for length ≥ 8 and length ≥ 12), so it is at most 7; `isValid`
is `score ≥ 6`; when valid the feedback is the single affirmative message;
when invalid each feedback message appears exactly when its criterion
fails — except that the length message appears only when length < 8, so an
unmet length ≥ 12 criterion (length 8 to 11) goes unmentioned. -/
theorem c10_strength_score_contract (password : String) :
    (PasswordUtils.validatePasswordStrength password).score = specCriteriaMet password ∧
    (PasswordUtils.validatePasswordStrength password).score ≤ 7 ∧
    (PasswordUtils.validatePasswordStrength password).isValid =
      decide (6 ≤ (PasswordUtils.validatePasswordStrength password).score) ∧
    ((PasswordUtils.validatePasswordStrength password).isValid = true →
      (PasswordUtils.validatePasswordStrength password).feedback =
        ["Password strength is good"]) ∧
    ((PasswordUtils.validatePasswordStrength password).isValid = false →
      ((("Password should be at least 8 characters long" ∈
          (PasswordUtils.validatePasswordStrength password).feedback) ↔
          password.length < 8) ∧
       (("Include lowercase letters" ∈
          (PasswordUtils.validatePasswordStrength password).feedback) ↔
          hasLowercase password = false) ∧
       (("Include uppercase letters" ∈
          (PasswordUtils.validatePasswordStrength password).feedback) ↔
          hasUppercase password = false) ∧
       (("Include numbers" ∈
          (PasswordUtils.validatePasswordStrength password).feedback) ↔
          hasDigitChar password = false) ∧
       (("Include special characters" ∈
          (PasswordUtils.validatePasswordStrength password).feedback) ↔
          hasSpecialChar password = false) ∧
       (("Avoid repeating characters" ∈
          (PasswordUtils.validatePasswordStrength password).feedback) ↔
          hasRepeatRun password.data = true))) := by
  refine ⟨?_, ?_, rfl, ?_, ?_⟩
  · simp only [PasswordUtils.validatePasswordStrength, strengthScore, specCriteriaMet]
    split_ifs <;> omega
  · simp only [PasswordUtils.validatePasswordStrength, strengthScore]
    split_ifs <;> omega
  · intro h
    have h6 : 6 ≤ strengthScore password := of_decide_eq_true h
    simp only [PasswordUtils.validatePasswordStrength, if_pos h6]
  · intro h
    have h6 : ¬ 6 ≤ strengthScore password := of_decide_eq_false h
    simp only [PasswordUtils.validatePasswordStrength, if_neg h6, strengthFeedback,
      List.mem_append, mem_ite_nil_pos, mem_ite_nil_neg, List.mem_singleton,
      List.not_mem_nil]
    refine ⟨?_, ?_, ?_, ?_, ?_, ?_⟩ <;> (simp [Bool.not_eq_true]; try omega)

/-- Witness for C10's amended theorem: the valid `"Aa1!Aa1!Aa1!"` gets the
affirmative message; for the invalid `"aaaaaaaa"` the uppercase message
appears because the uppercase criterion fails. -/
theorem c10_strength_score_contract_witness :
    (PasswordUtils.validatePasswordStrength "Aa1!Aa1!Aa1!").feedback =
      ["Password strength is good"] ∧
    (("Include uppercase letters" ∈
        (PasswordUtils.validatePasswordStrength "aaaaaaaa").feedback) ↔
      hasUppercase "aaaaaaaa" = false) :=
  ⟨(c10_strength_score_contract "Aa1!Aa1!Aa1!").2.2.2.1 (by decide),
   ((c10_strength_score_contract "aaaaaaaa").2.2.2.2 (by decide)).2.2.1⟩

end SimOneChat
